import Mathlib

/-!
Verification development for the store-layout simulator and genetic optimizer.

The definitions below are a shallow embedding of the JavaScript sources:
  * the simulation engine (`SimulationEngine` class: spawning, per-customer
    updates, target arrival, congestion grid, metrics),
  * the AI customer fallback decision (`aiCustomer.js`),
  * the genetic optimizer (`geneticOptimizer.js`: elitism and crossover).

JS numbers are modelled as exact rationals (`ℚ`).  `Math.sqrt`, `Math.cos`,
`Math.sin`, `Math.atan2` and the random draws are irrational / nondeterministic,
so they enter as oracle parameters; every theorem quantifies over them.
-/

/-- Point in the plane; coordinates are exact rationals standing in for JS numbers. -/
structure Point where
  x : ℚ
  y : ℚ
deriving DecidableEq

/-- Wall segment. The source field `end` is a Lean keyword, modelled as `end_`. -/
structure Wall where
  start : Point
  end_ : Point
deriving DecidableEq

/-- Opening (entrance or exit): index of the owning wall, offset along the wall,
and span length, as in the layout exchange shape `{wallIndex, offset, length}`. -/
structure Opening where
  wallIndex : ℕ
  offset : ℚ
  length : ℚ
deriving DecidableEq

/-- Product section rectangle `{x, y, width, height, label}`. -/
structure ProductSection where
  x : ℚ
  y : ℚ
  width : ℚ
  height : ℚ
  label : String
deriving DecidableEq

/-- Checkout point `{x, y}`. -/
structure Checkout where
  x : ℚ
  y : ℚ
deriving DecidableEq

/-- Layout: walls, entrances, exits, product sections and checkouts, all ordered. -/
structure Layout where
  walls : List Wall
  entrances : List Opening
  exits : List Opening
  products : List ProductSection
  checkouts : List Checkout
deriving DecidableEq

/-- JS `Math.round` over exact rationals: round half up, `⌊q + 1/2⌋`. -/
def jsRound (q : ℚ) : ℤ := ⌊q + 1/2⌋

/-- Customer status, `'shopping' | 'checkout' | 'exiting' | 'exited'`. -/
inductive Status where
  | shopping
  | checkout
  | exiting
  | exited
deriving DecidableEq

/-- Position of a status along the intended forward order
shopping → checkout → exiting → exited. -/
def statusRank : Status → ℕ
  | .shopping => 0
  | .checkout => 1
  | .exiting => 2
  | .exited => 3

/-- Target kind, `'product' | 'checkout' | 'exit'` (source field `targetType`). -/
inductive TargetType where
  | product
  | checkout
  | exit
deriving DecidableEq

/-- The object stored in `customer.currentTarget`: a product section, a checkout,
or a resolved exit position. -/
inductive CurrentTarget where
  | productT (p : ProductSection)
  | checkoutT (c : Checkout)
  | exitT (p : Point)
deriving DecidableEq

/-- Customer record created by `SimulationEngine.spawnCustomer` (lines 865-882). -/
structure Customer where
  id : ℕ
  x : ℚ
  y : ℚ
  targetX : ℚ
  targetY : ℚ
  speed : ℚ
  shoppingList : List String
  collected : List String
  status : Status
  lastDecisionTime : ℚ
  decisionInterval : ℚ
  currentTarget : Option CurrentTarget
  targetType : Option TargetType
  waitTime : ℚ
  spawnTime : ℚ
  visionRange : ℚ
deriving DecidableEq

/-- Engine metrics record (lines 751-757).  The congestion `Map` is modelled as
an insertion-ordered association list, as JS `Map` iteration is insertion-ordered. -/
structure Metrics where
  totalCustomers : ℕ
  completedCustomers : ℕ
  avgShoppingTime : ℚ
  congestionData : List ((ℤ × ℤ) × ℕ)
  bottleneckLocations : List (ℚ × ℚ × ℕ)
deriving DecidableEq

/-- The metrics value the constructor and `start()` install (lines 764-770). -/
def initialMetrics : Metrics :=
  { totalCustomers := 0
    completedCustomers := 0
    avgShoppingTime := 0
    congestionData := []
    bottleneckLocations := [] }

/-- Mutable state of a `SimulationEngine` instance. -/
structure SimulationEngine where
  layout : Layout
  customers : List Customer
  time : ℚ
  lastSpawnTime : ℚ
  isRunning : Bool
  metrics : Metrics
deriving DecidableEq

/-- `this.spawnInterval = 5000` (milliseconds). -/
def spawnInterval : ℚ := 5000

/-- `this.maxCustomers = 50`. -/
def maxCustomers : ℕ := 50

/-- A section as perceived by a customer, `{name, distance, crowdCount}`. -/
structure VisibleSection where
  name : String
  distance : ℚ
  crowdCount : ℕ
deriving DecidableEq

/-- Decision kind returned by the decision provider. -/
inductive DecisionType where
  | product
  | checkout
  | exit
deriving DecidableEq

/-- Decision returned by the provider: `{type, target}` with `target` a visible
section for product decisions and `null` otherwise. -/
structure Decision where
  type : DecisionType
  target : Option VisibleSection
deriving DecidableEq

/-- JS `String.prototype.toLowerCase`, modelled on the character list. -/
def jsLower (s : String) : List Char := s.data.map Char.toLower

/-- JS `String.prototype.includes` on character lists: `charsIncludes needle hay`
is true when `needle` occurs contiguously inside `hay`. -/
def charsIncludes (needle : List Char) : List Char → Bool
  | [] => needle.isEmpty
  | c :: rest => needle.isPrefixOf (c :: rest) || charsIncludes needle rest

/-- Label matching used by the AI customer fallback (aiCustomer.js lines 128-131):
`itemName.includes(sectionName) || sectionName.includes(itemName)`, both lowercased. -/
def matchesItem (sectionName item : String) : Bool :=
  charsIncludes (jsLower sectionName) (jsLower item) ||
    charsIncludes (jsLower item) (jsLower sectionName)

/-- Stable insertion of `x` into a sorted list: `x` goes before the first element
it compares less-or-equal to, so earlier-inserted equal elements keep their order. -/
def insertLe {α : Type} (le : α → α → Bool) (x : α) : List α → List α
  | [] => [x]
  | y :: ys => if le x y then x :: y :: ys else y :: insertLe le x ys

/-- Stable sort modelling `Array.prototype.sort` with a consistent comparator
(ES2019 requires sort to be stable, and a stable sort is uniquely determined
by the induced total preorder). -/
def sortJs {α : Type} (le : α → α → Bool) : List α → List α
  | [] => []
  | x :: xs => insertLe le x (sortJs le xs)

/-- Binary minimum for a Boolean total preorder, keeping the left argument on ties. -/
def min2 {α : Type} (le : α → α → Bool) (a b : α) : α := if le a b then a else b

/-- First minimal element of a list under a Boolean total preorder
(the element a stable ascending sort puts first). -/
def firstMinBy {α : Type} (le : α → α → Bool) : List α → Option α
  | [] => none
  | x :: xs => some (xs.foldl (min2 le) x)

/-- Comparator of the fallback's needed-section sort (aiCustomer.js lines 136-141):
crowd count ascending, then distance ascending. -/
def crowdDistLe (a b : VisibleSection) : Bool :=
  decide (a.crowdCount < b.crowdCount) ||
    (decide (a.crowdCount = b.crowdCount) && decide (a.distance ≤ b.distance))

/-- Comparator of the fallback's nearest-section sort (line 147): distance ascending. -/
def distLe (a b : VisibleSection) : Bool := decide (a.distance ≤ b.distance)

/-- The deterministic fallback decision, translated from `makeFallbackDecision`
(aiCustomer.js lines 119-152). -/
def makeFallbackDecision (visibleSections : List VisibleSection)
    (shoppingList collected : List String) : Decision :=
  if shoppingList.all (fun item => collected.contains item) then
    { type := .checkout, target := none }
  else
    let neededSections := visibleSections.filter (fun s =>
      shoppingList.any (fun item => matchesItem s.name item) && !(collected.contains s.name))
    if 0 < neededSections.length then
      { type := .product, target := (sortJs crowdDistLe neededSections).head? }
    else if 0 < visibleSections.length then
      { type := .product, target := (sortJs distLe visibleSections).head? }
    else
      { type := .checkout, target := none }

/-- Modelled from the claim C6 wording: checkout when every shopping-list item is
collected; otherwise, among visible sections whose label matches an *uncollected*
list item, one minimal by crowd then distance; otherwise the nearest visible
section; otherwise checkout. -/
def specFallbackDecision (visibleSections : List VisibleSection)
    (shoppingList collected : List String) : Decision :=
  if ∀ item ∈ shoppingList, item ∈ collected then { type := .checkout, target := none }
  else
    let matching := visibleSections.filter (fun s =>
      decide (∃ item ∈ shoppingList, item ∉ collected ∧ matchesItem s.name item = true))
    match firstMinBy crowdDistLe matching with
    | some s => { type := .product, target := some s }
    | none =>
      match firstMinBy distLe visibleSections with
      | some s => { type := .product, target := some s }
      | none => { type := .checkout, target := none }

/-- The amended C6 description: as `specFallbackDecision` but with the filter the
code actually has — the section's label matches *some* shopping-list item
(collected or not) and the label itself is not among the collected items. -/
def specFallbackDecisionAmended (visibleSections : List VisibleSection)
    (shoppingList collected : List String) : Decision :=
  if ∀ item ∈ shoppingList, item ∈ collected then { type := .checkout, target := none }
  else
    let matching := visibleSections.filter (fun s =>
      decide ((∃ item ∈ shoppingList, matchesItem s.name item = true) ∧ s.name ∉ collected))
    match firstMinBy crowdDistLe matching with
    | some s => { type := .product, target := some s }
    | none =>
      match firstMinBy distLe visibleSections with
      | some s => { type := .product, target := some s }
      | none => { type := .checkout, target := none }

/-- Batch running-mean update performed at exit arrival
(`checkTargetReached`, lines 1119-1122): with the completed count already
incremented to `completedAfter`, the new mean is
`(oldMean·(completedAfter−1) + sample) / completedAfter`. -/
def codeMeanUpdate (oldMean sample : ℚ) (completedAfter : ℕ) : ℚ :=
  (oldMean * ((completedAfter : ℚ) - 1) + sample) / (completedAfter : ℚ)

/-- Modelled from the spec: the incremental update
`newMean = oldMean + (sample - oldMean) / completedCount`. -/
def specMeanUpdate (oldMean sample : ℚ) (completedAfter : ℕ) : ℚ :=
  oldMean + (sample - oldMean) / (completedAfter : ℚ)

/-- One elitism update of the retained best fitness (geneticOptimizer.js lines
31-34): the best is replaced only when the generation's top fitness strictly
exceeds it.  `⊥` models the initial `-Infinity`. -/
def updateBestW (best t : WithBot ℚ) : WithBot ℚ := if best < t then t else best

/-- Top fitness of a generation: `evaluated[0].fitness` after the descending sort
(line 28) is the maximum of the generation's fitness values; the populations the
optimizer builds are always nonempty, `⊥` covers the impossible empty case. -/
def topFitness (fitnesses : List ℚ) : WithBot ℚ :=
  fitnesses.foldl (fun acc f => max acc (f : WithBot ℚ)) ⊥

/-- The sequence of `bestFitness` values the progress callback reports, one per
generation (lines 36-44), starting from retained best `best`; each generation is
given by the list of its evaluated fitness values. -/
def reportedBests (best : WithBot ℚ) : List (List ℚ) → List (WithBot ℚ)
  | [] => []
  | gen :: gens =>
    let b := updateBestW best (topFitness gen)
    b :: reportedBests b gens

/-- Product-position splice of `GeneticOptimizer.crossover` (lines 189-200):
from `mixPoint` on, the child's product at index `j` takes the x/y of
`other[j]` when it exists; `j` is the index of the head of the third argument. -/
def mixProducts (other : List ProductSection) (mixPoint : ℕ) :
    List ProductSection → ℕ → List ProductSection
  | [], _ => []
  | p :: rest, j =>
    (if mixPoint ≤ j then
      match other[j]? with
      | some q => { p with x := q.x, y := q.y }
      | none => p
    else p) :: mixProducts other mixPoint rest (j + 1)

/-- Checkout mixing of `GeneticOptimizer.crossover` (lines 203-210): per index,
a coin decides whether to take a copy of `other[idx]` (when it exists). -/
def mixCheckouts (other : List Checkout) (coin : ℕ → Bool) :
    List Checkout → ℕ → List Checkout
  | [], _ => []
  | c :: rest, idx =>
    (if coin idx then
      match other[idx]? with
      | some q => q
      | none => c
    else c) :: mixCheckouts other coin rest (idx + 1)

/-- One crossover child (geneticOptimizer.js lines 186-212): deep-copy `parent1`,
splice in `parent2`'s product positions from `mixPoint` on (only when the product
lists have equal length), and inherit each checkout from either parent by coin
(only when the checkout lists have equal length). -/
def crossoverChild (parent1 parent2 : Layout) (mixPoint : ℕ) (coin : ℕ → Bool) : Layout :=
  let products :=
    if parent2.products.length = parent1.products.length then
      mixProducts parent2.products mixPoint parent1.products 0
    else parent1.products
  let checkouts :=
    if parent2.checkouts.length = parent1.checkouts.length then
      mixCheckouts parent2.checkouts coin parent1.checkouts 0
    else parent1.checkouts
  { parent1 with products := products, checkouts := checkouts }

/-- External inputs of an engine step: `Math.sqrt`/`Math.cos`/`Math.sin`/
`Math.atan2` (irrational over ℚ, so oracle functions), the random draws of
`spawnCustomer`, `generateShoppingList` and `moveCustomer`, and the decision
provider `makeAIDecision` (a network call; the fallback is one possible value). -/
structure Oracle where
  sqrt : ℚ → ℚ
  cos : ℚ → ℚ
  sin : ℚ → ℚ
  atan2 : ℚ → ℚ → ℚ
  entrancePick : ℕ
  newId : ℕ
  speedRand : ℚ
  listCountRand : ℕ
  shuffle : List String → List String
  moveRand : Customer → ℚ
  decideFn : Customer → List VisibleSection → List String → List String → Decision

/-- `SimulationEngine.getEntrancePosition` (lines 827-839).  Note the falsy-zero
guard: `!entrance.wallIndex` is true in JS when `wallIndex` is 0, so wall index 0
resolves to null even when wall 0 exists; an out-of-range index also resolves to
null.  `entrance.length || 40` treats a zero length as 40. -/
def getEntrancePosition (sqrt : ℚ → ℚ) (layout : Layout) (entrance : Opening) : Option Point :=
  if entrance.wallIndex = 0 then none
  else
    match layout.walls[entrance.wallIndex]? with
    | none => none
    | some wall =>
      let dx := wall.end_.x - wall.start.x
      let dy := wall.end_.y - wall.start.y
      let wallLength := sqrt (dx * dx + dy * dy)
      let entranceLength := if entrance.length = 0 then 40 else entrance.length
      let centerOffset := entrance.offset + entranceLength / 2
      some ⟨wall.start.x + dx / wallLength * centerOffset,
            wall.start.y + dy / wallLength * centerOffset⟩

/-- `SimulationEngine.getExitPosition` (lines 842-854), identical in shape to
`getEntrancePosition` including the falsy-zero wall-index guard. -/
def getExitPosition (sqrt : ℚ → ℚ) (layout : Layout) (exitOp : Opening) : Option Point :=
  if exitOp.wallIndex = 0 then none
  else
    match layout.walls[exitOp.wallIndex]? with
    | none => none
    | some wall =>
      let dx := wall.end_.x - wall.start.x
      let dy := wall.end_.y - wall.start.y
      let wallLength := sqrt (dx * dx + dy * dy)
      let exitLength := if exitOp.length = 0 then 40 else exitOp.length
      let centerOffset := exitOp.offset + exitLength / 2
      some ⟨wall.start.x + dx / wallLength * centerOffset,
            wall.start.y + dy / wallLength * centerOffset⟩

/-- The closest-exit loop that appears twice in the source (lines 950-964 in
`makeCustomerDecision` and lines 1095-1109 in `checkTargetReached`): walk the
exits, skip those whose position resolves to null, keep the position with the
least distance (`minDist` starts at `Infinity`, modelled by the `none` accumulator). -/
def closestExitFold (sqrt : ℚ → ℚ) (layout : Layout) (cx cy : ℚ)
    (exits : List Opening) : Option (Point × ℚ) :=
  exits.foldl
    (fun acc o =>
      match getExitPosition sqrt layout o with
      | none => acc
      | some pos =>
        let d := sqrt ((pos.x - cx) * (pos.x - cx) + (pos.y - cy) * (pos.y - cy))
        match acc with
        | none => some (pos, d)
        | some best => if d < best.2 then some (pos, d) else some best)
    none

/-- The closest exit position, if any exit resolves to a position at all. -/
def closestExit (sqrt : ℚ → ℚ) (layout : Layout) (cx cy : ℚ)
    (exits : List Opening) : Option Point :=
  (closestExitFold sqrt layout cx cy exits).map Prod.fst

/-- `SimulationEngine.generateShoppingList` (lines 888-893): shuffle the product
labels and take 3-5 of them; the permutation and the count draw come from the oracle. -/
def generateShoppingList (o : Oracle) (layout : Layout) : List String :=
  let allProducts := layout.products.map (fun p => p.label)
  let count := 3 + o.listCountRand % 3
  (o.shuffle allProducts).take count

/-- `SimulationEngine.spawnCustomer` (lines 856-886): silently returns when there
is no entrance or the picked entrance's position resolves to null; otherwise
appends a fresh `'shopping'` customer at the entrance position and increments
`totalCustomers`.  `Math.floor(Math.random()*len)` is always a valid index,
modelled by reducing the oracle's pick modulo the entrance count. -/
def spawnCustomer (o : Oracle) (s : SimulationEngine) : SimulationEngine :=
  if s.layout.entrances.length = 0 then s
  else
    match s.layout.entrances[o.entrancePick % s.layout.entrances.length]? with
    | none => s
    | some entrance =>
      match getEntrancePosition o.sqrt s.layout entrance with
      | none => s
      | some pos =>
        let customer : Customer :=
          { id := o.newId
            x := pos.x
            y := pos.y
            targetX := pos.x
            targetY := pos.y
            speed := 30 + o.speedRand * 20
            shoppingList := generateShoppingList o s.layout
            collected := []
            status := .shopping
            lastDecisionTime := 0
            decisionInterval := 2000
            currentTarget := none
            targetType := none
            waitTime := 0
            spawnTime := s.time
            visionRange := 150 }
        { s with
            customers := s.customers ++ [customer]
            metrics := { s.metrics with totalCustomers := s.metrics.totalCustomers + 1 } }

/-- `SimulationEngine.lineIntersectsLine` (lines 1014-1022): segment-segment
intersection test; a near-zero denominator (|denom| < 0.001) counts as no
intersection. -/
def lineIntersectsLine (x1 y1 x2 y2 x3 y3 x4 y4 : ℚ) : Bool :=
  let denom := (x1 - x2) * (y3 - y4) - (y1 - y2) * (x3 - x4)
  if |denom| < 1/1000 then false
  else
    let t := ((x1 - x3) * (y3 - y4) - (y1 - y3) * (x3 - x4)) / denom
    let u := -((x1 - x2) * (y1 - y3) - (y1 - y2) * (x1 - x3)) / denom
    decide (0 ≤ t) && decide (t ≤ 1) && decide (0 ≤ u) && decide (u ≤ 1)

/-- `SimulationEngine.checkLineOfSight` (lines 1003-1012): true when the segment
crosses no wall. -/
def checkLineOfSight (layout : Layout) (x1 y1 x2 y2 : ℚ) : Bool :=
  layout.walls.all (fun wall =>
    !(lineIntersectsLine x1 y1 x2 y2 wall.start.x wall.start.y wall.end_.x wall.end_.y))

/-- `SimulationEngine.countCustomersNear` (lines 1024-1030). -/
def countCustomersNear (sqrt : ℚ → ℚ) (customers : List Customer) (x y radius : ℚ) : ℕ :=
  (customers.filter (fun c =>
    decide (sqrt ((c.x - x) * (c.x - x) + (c.y - y) * (c.y - y)) ≤ radius))).length

/-- `SimulationEngine.getVisibleSections` (lines 975-1001): product sections whose
centroid is within vision range and in line of sight, with distance reported in
tenths and the local crowd count within radius 30. -/
def getVisibleSections (o : Oracle) (layout : Layout) (customers : List Customer)
    (customer : Customer) : List VisibleSection :=
  layout.products.filterMap (fun p =>
    let centerX := p.x + p.width / 2
    let centerY := p.y + p.height / 2
    let dx := centerX - customer.x
    let dy := centerY - customer.y
    let distance := o.sqrt (dx * dx + dy * dy)
    if decide (distance ≤ customer.visionRange) &&
        checkLineOfSight layout customer.x customer.y centerX centerY then
      some { name := p.label
             distance := distance / 10
             crowdCount := countCustomersNear o.sqrt customers centerX centerY 30 }
    else none)

/-- The target-setting portion of `SimulationEngine.makeCustomerDecision`
(lines 933-972): a product decision retargets to the named product's centroid
(status untouched); a checkout decision targets the first checkout and sets
status to `'checkout'` with no guard on the current status; an exit decision
targets the closest resolvable exit and sets status to `'exiting'`. -/
def applyDecision (sqrt : ℚ → ℚ) (layout : Layout) (customer : Customer)
    (decision : Decision) : Customer :=
  match decision.type with
  | .product =>
    match decision.target with
    | none => customer
    | some t =>
      match layout.products.find? (fun p => p.label == t.name) with
      | none => customer
      | some product =>
        { customer with
            targetX := product.x + product.width / 2
            targetY := product.y + product.height / 2
            currentTarget := some (.productT product)
            targetType := some .product }
  | .checkout =>
    match layout.checkouts with
    | [] => customer
    | c :: _ =>
      { customer with
          targetX := c.x
          targetY := c.y
          currentTarget := some (.checkoutT c)
          targetType := some .checkout
          status := .checkout }
  | .exit =>
    match closestExit sqrt layout customer.x customer.y layout.exits with
    | none => customer
    | some pos =>
      { customer with
          targetX := pos.x
          targetY := pos.y
          currentTarget := some (.exitT pos)
          targetType := some .exit
          status := .exiting }

/-- `SimulationEngine.makeCustomerDecision` (lines 920-973): perceive, obtain a
decision from the provider (the oracle), and apply it. -/
def makeCustomerDecision (o : Oracle) (layout : Layout) (customers : List Customer)
    (customer : Customer) : Customer :=
  let visibleSections := getVisibleSections o layout customers customer
  let decision := o.decideFn customer visibleSections customer.shoppingList customer.collected
  applyDecision o.sqrt layout customer decision

/-- `SimulationEngine.moveCustomer` (lines 1032-1073): stand still within 5 units
of the target; otherwise move at half speed on a jittered heading when another
customer is within 20 units, else straight at the target; finally clamp to the
1200×800 world. -/
def moveCustomer (o : Oracle) (customers : List Customer) (deltaTime : ℚ)
    (customer : Customer) : Customer :=
  let dx := customer.targetX - customer.x
  let dy := customer.targetY - customer.y
  let distance := o.sqrt (dx * dx + dy * dy)
  if distance < 5 then customer
  else
    let nearby := customers.filter (fun c =>
      !(c.id == customer.id) &&
        decide (o.sqrt ((c.x - customer.x) * (c.x - customer.x) +
          (c.y - customer.y) * (c.y - customer.y)) < 20))
    let moved :=
      if 0 < nearby.length then
        let speed := customer.speed * (1/2)
        let angle := o.atan2 dy dx
        let avoidAngle := angle + (o.moveRand customer - 1/2) * (1/2)
        { customer with
            x := customer.x + o.cos avoidAngle * speed * (deltaTime / 1000)
            y := customer.y + o.sin avoidAngle * speed * (deltaTime / 1000) }
      else
        { customer with
            x := customer.x + dx / distance * customer.speed * (deltaTime / 1000)
            y := customer.y + dy / distance * customer.speed * (deltaTime / 1000) }
    { moved with x := max 0 (min moved.x 1200), y := max 0 (min moved.y 800) }

/-- `SimulationEngine.checkTargetReached` (lines 1075-1125).  Within 15 units of
the target: a product arrival collects the product when it is listed and not yet
collected (3 s wait); a checkout arrival with a complete collection waits 5 s,
sets status to `'exiting'` and retargets to the closest exit; an exit arrival
sets `'exited'`, increments the completed count and folds the shopping time into
the running mean via `codeMeanUpdate`. -/
def checkTargetReached (sqrt : ℚ → ℚ) (layout : Layout) (time : ℚ)
    (customer : Customer) (metrics : Metrics) : Customer × Metrics :=
  let dx := customer.targetX - customer.x
  let dy := customer.targetY - customer.y
  let distance := sqrt (dx * dx + dy * dy)
  if distance < 15 then
    match customer.targetType with
    | some .product =>
      match customer.currentTarget with
      | some (.productT product) =>
        if customer.shoppingList.contains product.label &&
            !(customer.collected.contains product.label) then
          ({ customer with collected := customer.collected ++ [product.label],
                           waitTime := 3000 }, metrics)
        else (customer, metrics)
      | _ => (customer, metrics)
    | some .checkout =>
      if customer.shoppingList.all (fun item => customer.collected.contains item) then
        let c1 := { customer with waitTime := 5000, status := Status.exiting }
        match closestExit sqrt layout c1.x c1.y layout.exits with
        | some pos => ({ c1 with targetX := pos.x, targetY := pos.y,
                                 targetType := some .exit }, metrics)
        | none => (c1, metrics)
      else (customer, metrics)
    | some .exit =>
      let shoppingTime := time - customer.spawnTime
      let completed := metrics.completedCustomers + 1
      ({ customer with status := Status.exited },
       { metrics with
           completedCustomers := completed
           avgShoppingTime := codeMeanUpdate metrics.avgShoppingTime shoppingTime completed })
    | none => (customer, metrics)
  else (customer, metrics)

/-- The per-customer body of `SimulationEngine.updateCustomers` (lines 896-914):
a waiting customer only counts down; otherwise decide (when 2 s have passed
since the last decision, stamping `lastDecisionTime`), move, and handle arrival.
`customers` is the current array, with earlier customers already updated. -/
def updateOneCustomer (o : Oracle) (layout : Layout) (time deltaTime : ℚ)
    (customers : List Customer) (customer : Customer) (metrics : Metrics) :
    Customer × Metrics :=
  if 0 < customer.waitTime then
    ({ customer with waitTime := customer.waitTime - deltaTime }, metrics)
  else
    let c1 :=
      if customer.decisionInterval ≤ time - customer.lastDecisionTime then
        { makeCustomerDecision o layout customers customer with lastDecisionTime := time }
      else customer
    let c2 := moveCustomer o customers deltaTime c1
    checkTargetReached o.sqrt layout time c2 metrics

/-- The in-place update loop of `updateCustomers`: index `i` is updated using the
array in which customers before `i` have already been replaced. -/
def updateCustomersPass (o : Oracle) (layout : Layout) (time deltaTime : ℚ)
    (cs : List Customer) (m : Metrics) : List Customer × Metrics :=
  (List.range cs.length).foldl
    (fun acc i =>
      match acc.1[i]? with
      | none => acc
      | some c =>
        let r := updateOneCustomer o layout time deltaTime acc.1 c acc.2
        (acc.1.set i r.1, r.2))
    (cs, m)

/-- `SimulationEngine.updateCustomers` (lines 895-918): run the per-customer
loop, then drop every customer whose status is `'exited'` (line 917). -/
def updateCustomers (o : Oracle) (layout : Layout) (time deltaTime : ℚ)
    (cs : List Customer) (m : Metrics) : List Customer × Metrics :=
  let r := updateCustomersPass o layout time deltaTime cs m
  (r.1.filter (fun c => !(c.status == Status.exited)), r.2)

/-- Lookup in the congestion map, `congestionData.get(key) || 0`. -/
def mapGet (grid : List ((ℤ × ℤ) × ℕ)) (k : ℤ × ℤ) : ℕ :=
  match grid.find? (fun e => decide (e.1 = k)) with
  | some e => e.2
  | none => 0

/-- `Map.set`: overwrite the existing entry in place, or append a new one. -/
def mapSet : List ((ℤ × ℤ) × ℕ) → ℤ × ℤ → ℕ → List ((ℤ × ℤ) × ℕ)
  | [], k, v => [(k, v)]
  | e :: rest, k, v => if e.1 = k then (k, v) :: rest else e :: mapSet rest k v

/-- `congestionData.set(key, (congestionData.get(key) || 0) + 1)` (line 1135). -/
def bump (grid : List ((ℤ × ℤ) × ℕ)) (k : ℤ × ℤ) : List ((ℤ × ℤ) × ℕ) :=
  mapSet grid k (mapGet grid k + 1)

/-- The 50-unit grid cell of a customer (lines 1129-1134). -/
def customerCell (c : Customer) : ℤ × ℤ := (⌊c.x / 50⌋, ⌊c.y / 50⌋)

/-- The congestion grid rebuilt from scratch over the given customers
(lines 1128-1136). -/
def buildCongestion (customers : List Customer) : List ((ℤ × ℤ) × ℕ) :=
  customers.foldl (fun g c => bump g (customerCell c)) []

/-- Bottleneck list (lines 1138-1149): cells with 3 or more occupants, reported
at the cell center with the count as intensity. -/
def bottlenecks (grid : List ((ℤ × ℤ) × ℕ)) : List (ℚ × ℚ × ℕ) :=
  (grid.filter (fun e => 3 ≤ e.2)).map
    (fun e => ((e.1.1 : ℚ) * 50 + 25, (e.1.2 : ℚ) * 50 + 25, e.2))

/-- `SimulationEngine.updateCongestionMap` (lines 1127-1150). -/
def updateCongestionMap (customers : List Customer) (m : Metrics) : Metrics :=
  let grid := buildCongestion customers
  { m with congestionData := grid, bottleneckLocations := bottlenecks grid }

/-- Sum of all congestion-grid cell counts. -/
def gridTotal (grid : List ((ℤ × ℤ) × ℕ)) : ℕ := (grid.map (fun e => e.2)).sum

/-- One pass of `SimulationEngine.run` (lines 791-824), the per-tick atomic
update: advance time, spawn when the interval elapsed and the cap allows
(`lastSpawnTime` is stamped whether or not a customer actually appears), update
all customers, drop exited ones, rebuild the congestion grid. -/
def tick (o : Oracle) (deltaTime : ℚ) (s : SimulationEngine) : SimulationEngine :=
  if s.isRunning = false then s
  else
    let s1 := { s with time := s.time + deltaTime }
    let s2 :=
      if spawnInterval ≤ s1.time - s1.lastSpawnTime ∧ s1.customers.length < maxCustomers then
        { spawnCustomer o s1 with lastSpawnTime := s1.time }
      else s1
    let r := updateCustomers o s2.layout s2.time deltaTime s2.customers s2.metrics
    let m := updateCongestionMap r.1 r.2
    { s2 with customers := r.1, metrics := m }

/-- `SimulationEngine.start` (lines 760-772): unconditionally reset the state and
begin running.  There is no layout validation of any kind. -/
def start (layout : Layout) : SimulationEngine :=
  { layout := layout
    customers := []
    time := 0
    lastSpawnTime := 0
    isRunning := true
    metrics := initialMetrics }

/-- The view returned by `SimulationEngine.getMetrics` (lines 1152-1165).
`avgShoppingTime` is rounded to whole seconds, `avgCongestion` to one decimal;
the empty grid yields 0. -/
structure MetricsView where
  totalCustomers : ℕ
  completedCustomers : ℕ
  avgShoppingTime : ℤ
  avgCongestion : ℚ
  currentCustomers : ℕ
  bottleneckCount : ℕ
deriving DecidableEq

/-- `SimulationEngine.getMetrics` (lines 1152-1165). -/
def getMetrics (s : SimulationEngine) : MetricsView :=
  let congestionScores := s.metrics.congestionData.map (fun e => (e.2 : ℚ))
  let avgCongestion :=
    if 0 < congestionScores.length then
      congestionScores.sum / (congestionScores.length : ℚ)
    else 0
  { totalCustomers := s.metrics.totalCustomers
    completedCustomers := s.metrics.completedCustomers
    avgShoppingTime := jsRound (s.metrics.avgShoppingTime / 1000)
    avgCongestion := (jsRound (avgCongestion * 10) : ℚ) / 10
    currentCustomers := s.customers.length
    bottleneckCount := s.metrics.bottleneckLocations.length }

/-- Modelled from the claim C2 wording: a malformed layout is one with an opening
whose wall index references no existing wall, or with zero entrances, zero exits,
or zero product sections. -/
def layoutMalformed (L : Layout) : Prop :=
  (∃ op ∈ L.entrances ++ L.exits, L.walls.length ≤ op.wallIndex) ∨
    L.entrances = [] ∨ L.exits = [] ∨ L.products = []

/-- A concrete oracle for witnesses: identity square root, trivial trig, fixed
draws, and a provider that always answers checkout. -/
def oracle0 : Oracle :=
  { sqrt := id
    cos := fun _ => 1
    sin := fun _ => 0
    atan2 := fun _ _ => 0
    entrancePick := 0
    newId := 1
    speedRand := 0
    listCountRand := 0
    shuffle := id
    moveRand := fun _ => 1/2
    decideFn := fun _ _ _ _ => { type := .checkout, target := none } }

/-- A layout with one checkout (used to exercise the checkout-decision branch). -/
def layoutCheckoutOnly : Layout :=
  { walls := [], entrances := [], exits := [], products := [], checkouts := [⟨100, 100⟩] }

/-- A customer who has finished checkout: status `'exiting'`, heading for the
exit, with the whole shopping list collected. -/
def custExiting : Customer :=
  { id := 7
    x := 500
    y := 0
    targetX := 900
    targetY := 0
    speed := 30
    shoppingList := ["Dairy"]
    collected := ["Dairy"]
    status := .exiting
    lastDecisionTime := 0
    decisionInterval := 2000
    currentTarget := none
    targetType := some .exit
    waitTime := 0
    spawnTime := 0
    visionRange := 150 }

/-- A malformed layout: no entrances, no products, and an exit whose wall index
references no existing wall. -/
def layoutNoEntrance : Layout :=
  { walls := [], entrances := [], exits := [⟨5, 0, 40⟩], products := [], checkouts := [] }

/-- A small well-formed layout: one wall, an entrance and an exit on it, one
product section and one checkout. -/
def layoutSmall : Layout :=
  { walls := [⟨⟨0, 0⟩, ⟨1000, 0⟩⟩]
    entrances := [⟨0, 10, 40⟩]
    exits := [⟨0, 900, 40⟩]
    products := [⟨100, 100, 80, 60, "Dairy"⟩]
    checkouts := [⟨50, 50⟩] }

/-! Helper lemmas. -/

/-- The retained best never decreases in one elitism update. -/
theorem le_updateBestW (b t : WithBot ℚ) : b ≤ updateBestW b t := by
  unfold updateBestW
  split
  · exact le_of_lt (by assumption)
  · exact le_refl b

/-- The head of the reported sequence is at least the starting best. -/
theorem reportedBests_head_ge (b : WithBot ℚ) (gens : List (List ℚ)) :
    ∀ y ∈ (reportedBests b gens).head?, b ≤ y := by
  cases gens with
  | nil => intro y hy; simp [reportedBests] at hy
  | cons g gs =>
    intro y hy
    simp only [reportedBests, List.head?_cons, Option.mem_def, Option.some.injEq] at hy
    exact hy ▸ le_updateBestW b (topFitness g)

/-- The reported best-fitness sequence is a ≤-chain, for any starting best. -/
theorem reportedBests_chain (b : WithBot ℚ) (gens : List (List ℚ)) :
    List.Chain' (· ≤ ·) (reportedBests b gens) := by
  induction gens generalizing b with
  | nil => simp [reportedBests]
  | cons g gs ih =>
    simp only [reportedBests]
    rw [List.chain'_cons']
    exact ⟨reportedBests_head_ge _ gs, ih _⟩

/-- C5. Across a full optimization run the retained best fitness is monotone:
starting from the initial `-Infinity` (`⊥`), every pair of consecutive reported
`bestFitness` values is non-decreasing, for every sequence of generations. -/
theorem C5_best_fitness_monotone (gens : List (List ℚ)) :
    List.Chain' (· ≤ ·) (reportedBests ⊥ gens) :=
  reportedBests_chain ⊥ gens

/-- C7. The code's batch running-mean update equals the spec's incremental
update over exact rational arithmetic, for every prior mean, every sample and
every positive completed count. -/
theorem C7_mean_update_equiv (oldMean sample : ℚ) (n : ℕ) (h : 1 ≤ n) :
    codeMeanUpdate oldMean sample n = specMeanUpdate oldMean sample n := by
  have hn : (n : ℚ) ≠ 0 := by positivity
  unfold codeMeanUpdate specMeanUpdate
  field_simp
  ring

/-- Witness for C7 at a concrete input: prior mean 10, sample 4, count 2. -/
theorem C7_mean_update_equiv_witness :
    1 ≤ 2 ∧ codeMeanUpdate 10 4 2 = specMeanUpdate 10 4 2 :=
  ⟨by decide, C7_mean_update_equiv 10 4 2 (by decide)⟩

/-- Splicing a list's own positions into itself changes nothing. -/
theorem mixProducts_self (full : List ProductSection) (mix : ℕ) :
    ∀ (l : List ProductSection) (j : ℕ), (∀ i, l[i]? = full[j + i]?) →
      mixProducts full mix l j = l := by
  intro l
  induction l with
  | nil => intro j _; rfl
  | cons p rest ih =>
    intro j h
    have h0 : full[j]? = some p := by
      have := h 0
      simpa using this.symm
    unfold mixProducts
    have htail : mixProducts full mix rest (j + 1) = rest := by
      apply ih
      intro i
      have := h (i + 1)
      simpa [Nat.add_assoc, Nat.add_comm 1 i] using this
    rw [htail, h0]
    split <;> rfl

/-- Inheriting a list's own entries per-index changes nothing. -/
theorem mixCheckouts_self (full : List Checkout) (coin : ℕ → Bool) :
    ∀ (l : List Checkout) (j : ℕ), (∀ i, l[i]? = full[j + i]?) →
      mixCheckouts full coin l j = l := by
  intro l
  induction l with
  | nil => intro j _; rfl
  | cons c rest ih =>
    intro j h
    have h0 : full[j]? = some c := by
      have := h 0
      simpa using this.symm
    unfold mixCheckouts
    have htail : mixCheckouts full coin rest (j + 1) = rest := by
      apply ih
      intro i
      have := h (i + 1)
      simpa [Nat.add_assoc, Nat.add_comm 1 i] using this
    rw [htail, h0]
    split <;> rfl

/-- C8. Crossover is idempotent on identical parents: with both parents the same
layout, the child equals that layout — walls, products (positions and sizes) and
checkouts included — for every mix point and every sequence of checkout coins. -/
theorem C8_crossover_idempotent (L : Layout) (mixPoint : ℕ) (coin : ℕ → Bool) :
    crossoverChild L L mixPoint coin = L := by
  unfold crossoverChild
  rw [if_pos rfl, if_pos rfl]
  rw [mixProducts_self L.products mixPoint L.products 0 (fun i => by simp),
      mixCheckouts_self L.checkouts coin L.checkouts 0 (fun i => by simp)]

/-- Totality of the crowd-then-distance comparator. -/
theorem crowdDistLe_total (a b : VisibleSection) :
    crowdDistLe a b = true ∨ crowdDistLe b a = true := by
  unfold crowdDistLe
  rcases Nat.lt_trichotomy a.crowdCount b.crowdCount with h | h | h
  · left; simp [h]
  · rcases le_total a.distance b.distance with hd | hd
    · left; simp [h, hd]
    · right; simp [h.symm, hd]
  · right; simp [h]

/-- Transitivity of the crowd-then-distance comparator. -/
theorem crowdDistLe_trans (a b c : VisibleSection) :
    crowdDistLe a b = true → crowdDistLe b c = true → crowdDistLe a c = true := by
  unfold crowdDistLe
  intro hab hbc
  simp only [Bool.or_eq_true, Bool.and_eq_true, decide_eq_true_eq] at hab hbc ⊢
  rcases hab with h1 | ⟨h1, h1d⟩ <;> rcases hbc with h2 | ⟨h2, h2d⟩
  · left; omega
  · left; omega
  · left; omega
  · right; exact ⟨by omega, le_trans h1d h2d⟩

/-- Totality of the distance comparator. -/
theorem distLe_total (a b : VisibleSection) : distLe a b = true ∨ distLe b a = true := by
  unfold distLe
  rcases le_total a.distance b.distance with h | h
  · left; simpa using h
  · right; simpa using h

/-- Transitivity of the distance comparator. -/
theorem distLe_trans (a b c : VisibleSection) :
    distLe a b = true → distLe b c = true → distLe a c = true := by
  unfold distLe
  intro hab hbc
  simp only [decide_eq_true_eq] at hab hbc ⊢
  exact le_trans hab hbc

/-- Associativity of the tie-keeping binary minimum, for a total transitive
Boolean preorder. -/
theorem min2_assoc {α : Type} (le : α → α → Bool)
    (htot : ∀ a b, le a b = true ∨ le b a = true)
    (htrans : ∀ a b c, le a b = true → le b c = true → le a c = true)
    (a b c : α) : min2 le (min2 le a b) c = min2 le a (min2 le b c) := by
  unfold min2
  cases hab : le a b with
  | true =>
    cases hbc : le b c with
    | true =>
      have hac : le a c = true := htrans a b c hab hbc
      simp [hab, hbc, hac]
    | false => simp [hab, hbc]
  | false =>
    cases hbc : le b c with
    | true => simp [hab, hbc]
    | false =>
      have hcb : le c b = true := by
        rcases htot b c with h | h
        · rw [h] at hbc; cases hbc
        · exact h
      have hac : le a c = false := by
        cases h : le a c with
        | true =>
          have := htrans a c b h hcb
          rw [this] at hab; cases hab
        | false => rfl
      simp [hab, hbc, hac]

/-- Folding the tie-keeping minimum from a combined seed splits into a minimum
with the fold from the second seed. -/
theorem foldl_min2_shift {α : Type} (le : α → α → Bool)
    (htot : ∀ a b, le a b = true ∨ le b a = true)
    (htrans : ∀ a b c, le a b = true → le b c = true → le a c = true) :
    ∀ (l : List α) (x y : α),
      l.foldl (min2 le) (min2 le x y) = min2 le x (l.foldl (min2 le) y) := by
  intro l
  induction l with
  | nil => intro x y; rfl
  | cons z zs ih =>
    intro x y
    simp only [List.foldl_cons]
    rw [min2_assoc le htot htrans x y z]
    exact ih x (min2 le y z)

/-- Stable insertion grows the length by one. -/
theorem insertLe_length {α : Type} (le : α → α → Bool) (x : α) :
    ∀ l : List α, (insertLe le x l).length = l.length + 1 := by
  intro l
  induction l with
  | nil => rfl
  | cons y ys ih =>
    unfold insertLe
    split
    · simp
    · simp [ih]

/-- The stable sort preserves length. -/
theorem sortJs_length {α : Type} (le : α → α → Bool) :
    ∀ l : List α, (sortJs le l).length = l.length := by
  intro l
  induction l with
  | nil => rfl
  | cons x xs ih =>
    unfold sortJs
    rw [insertLe_length, ih]
    simp

/-- The head of the stable ascending sort is the first minimal element, for a
total transitive Boolean preorder. -/
theorem sortJs_head_eq_firstMinBy {α : Type} (le : α → α → Bool)
    (htot : ∀ a b, le a b = true ∨ le b a = true)
    (htrans : ∀ a b c, le a b = true → le b c = true → le a c = true) :
    ∀ l : List α, (sortJs le l).head? = firstMinBy le l := by
  intro l
  induction l with
  | nil => rfl
  | cons x xs ih =>
    cases xs with
    | nil => rfl
    | cons y ys =>
      obtain ⟨z, zs, hz⟩ : ∃ z zs, sortJs le (y :: ys) = z :: zs := by
        cases h : sortJs le (y :: ys) with
        | nil =>
          have := sortJs_length le (y :: ys)
          rw [h] at this
          simp at this
        | cons a as => exact ⟨a, as, rfl⟩
      have hzval : z = ys.foldl (min2 le) y := by
        have hh := ih
        rw [hz] at hh
        simpa [firstMinBy] using hh
      show (insertLe le x (sortJs le (y :: ys))).head? = firstMinBy le (x :: y :: ys)
      rw [hz]
      have hhead : (insertLe le x (z :: zs)).head? = some (min2 le x z) := by
        unfold insertLe min2
        split <;> simp
      rw [hhead, hzval]
      simp only [firstMinBy, List.foldl_cons]
      rw [foldl_min2_shift le htot htrans ys x y]

/-- C6 (amended). The fallback decision equals the amended description: checkout
when every shopping-list item is collected; otherwise, among visible sections
whose label matches *some* shopping-list item and whose label is not itself
collected, the earliest section minimal by crowd count then distance; otherwise
the earliest nearest visible section regardless of need; otherwise checkout. -/
theorem C6_fallback_matches_amended_spec (vs : List VisibleSection) (sl col : List String) :
    makeFallbackDecision vs sl col = specFallbackDecisionAmended vs sl col := by
  unfold makeFallbackDecision specFallbackDecisionAmended
  have hall : ((sl.all fun item => col.contains item) = true) ↔ (∀ item ∈ sl, item ∈ col) := by
    simp [List.all_eq_true, List.contains, List.elem_iff]
  by_cases hAll : ∀ item ∈ sl, item ∈ col
  · rw [if_pos (hall.mpr hAll), if_pos hAll]
  · rw [if_neg (fun hb => hAll (hall.mp hb)), if_neg hAll]
    have hfilter :
        vs.filter (fun s =>
          sl.any (fun item => matchesItem s.name item) && !(col.contains s.name)) =
        vs.filter (fun s =>
          decide ((∃ item ∈ sl, matchesItem s.name item = true) ∧ s.name ∉ col)) := by
      apply List.filter_congr
      intro s _
      by_cases hex : ∃ item ∈ sl, matchesItem s.name item = true
      · by_cases hc : s.name ∈ col
        · simp [hex, hc, List.any_eq_true, List.contains, List.elem_iff]
        · simp [hex, hc, List.any_eq_true, List.contains, List.elem_iff]
      · by_cases hc : s.name ∈ col
        · simp [hex, hc, List.any_eq_true, List.contains, List.elem_iff]
        · have hany : (sl.any fun item => matchesItem s.name item) = false := by
            cases h : sl.any (fun item => matchesItem s.name item) with
            | true =>
              rw [List.any_eq_true] at h
              exact absurd h hex
            | false => rfl
          simp [hany, hex, hc, List.contains]
    rw [hfilter]
    cases hn : vs.filter (fun s =>
        decide ((∃ item ∈ sl, matchesItem s.name item = true) ∧ s.name ∉ col)) with
    | nil =>
      simp only [hn, List.length_nil, Nat.lt_irrefl, if_false, firstMinBy]
      cases hv : vs with
      | nil => simp [firstMinBy]
      | cons w ws =>
        have := sortJs_head_eq_firstMinBy distLe distLe_total distLe_trans (w :: ws)
        simp only [List.length_cons, Nat.zero_lt_succ, if_true, this, firstMinBy]
    | cons n ns =>
      have := sortJs_head_eq_firstMinBy crowdDistLe crowdDistLe_total crowdDistLe_trans (n :: ns)
      simp only [List.length_cons, Nat.zero_lt_succ, if_true, this, firstMinBy]

/-- Counterexample for C6 as stated.  With visible sections "a" (distance 5) and
"zz" (distance 1), shopping list ["ab", "cd"] and collected ["ab"]: section "a"
matches only the already-collected item "ab", so the claim's filter is empty and
the claim picks the nearest section "zz"; the code's filter keeps "a" (its label
matches some list item and "a" itself is not collected) and the code returns "a". -/
theorem C6_counterexample :
    makeFallbackDecision [⟨"a", 5, 0⟩, ⟨"zz", 1, 0⟩] ["ab", "cd"] ["ab"] =
      { type := .product, target := some ⟨"a", 5, 0⟩ } ∧
    specFallbackDecision [⟨"a", 5, 0⟩, ⟨"zz", 1, 0⟩] ["ab", "cd"] ["ab"] =
      { type := .product, target := some ⟨"zz", 1, 0⟩ } ∧
    makeFallbackDecision [⟨"a", 5, 0⟩, ⟨"zz", 1, 0⟩] ["ab", "cd"] ["ab"] ≠
      specFallbackDecision [⟨"a", 5, 0⟩, ⟨"zz", 1, 0⟩] ["ab", "cd"] ["ab"] := by
  refine ⟨?_, ?_, ?_⟩ <;> decide

/-- Where a decision can leave the status: unchanged, or `'checkout'` on a
checkout decision, or `'exiting'` on an exit decision — with no guard on the
previous status. -/
theorem applyDecision_status_cases (sq : ℚ → ℚ) (L : Layout) (c : Customer) (d : Decision) :
    (applyDecision sq L c d).status = c.status ∨
    ((applyDecision sq L c d).status = Status.checkout ∧ d.type = DecisionType.checkout) ∨
    ((applyDecision sq L c d).status = Status.exiting ∧ d.type = DecisionType.exit) := by
  unfold applyDecision
  rcases d with ⟨dtype, dtarget⟩
  cases dtype with
  | product =>
    dsimp only
    cases dtarget with
    | none => left; rfl
    | some t =>
      dsimp only
      cases L.products.find? (fun p => p.label == t.name) with
      | none => left; rfl
      | some p => left; rfl
  | checkout =>
    dsimp only
    cases L.checkouts with
    | nil => left; rfl
    | cons cp cps => right; left; exact ⟨rfl, rfl⟩
  | exit =>
    dsimp only
    cases closestExit sq L c.x c.y L.exits with
    | none => left; rfl
    | some pos => right; right; exact ⟨rfl, rfl⟩

/-- Where an arrival can leave the status: unchanged, `'exiting'` (checkout
arrival with full collection) or `'exited'` (exit arrival). -/
theorem checkTargetReached_status_cases (sq : ℚ → ℚ) (L : Layout) (t : ℚ)
    (c : Customer) (m : Metrics) :
    (checkTargetReached sq L t c m).1.status = c.status ∨
    (checkTargetReached sq L t c m).1.status = Status.exiting ∨
    (checkTargetReached sq L t c m).1.status = Status.exited := by
  unfold checkTargetReached
  dsimp only
  split
  case isFalse => left; rfl
  case isTrue =>
    split
    case h_1 =>
      split
      all_goals first
        | (left; rfl)
        | (split <;> (left; rfl))
    case h_2 =>
      split
      case isTrue =>
        split
        all_goals (right; left; rfl)
      case isFalse => left; rfl
    case h_3 => right; right; rfl
    case h_4 => left; rfl

/-- C1 (amended).  For every non-exited customer: a decision never moves the
status backward except that a checkout decision sets an `'exiting'` customer
back to `'checkout'`; no decision ever returns a customer to `'shopping'`; and
arrival handling never moves the status backward. -/
theorem C1_status_forward_amended (sq : ℚ → ℚ) (L : Layout) (c : Customer) (d : Decision)
    (time : ℚ) (m : Metrics) (h : c.status ≠ Status.exited) :
    (statusRank c.status ≤ statusRank (applyDecision sq L c d).status ∨
      (c.status = Status.exiting ∧ d.type = DecisionType.checkout ∧
        (applyDecision sq L c d).status = Status.checkout)) ∧
    ((applyDecision sq L c d).status = Status.shopping → c.status = Status.shopping) ∧
    statusRank c.status ≤ statusRank (checkTargetReached sq L time c m).1.status := by
  refine ⟨?_, ?_, ?_⟩
  · rcases applyDecision_status_cases sq L c d with h1 | ⟨h1, h2⟩ | ⟨h1, h2⟩
    · left; rw [h1]
    · cases hs : c.status with
      | shopping => left; rw [h1]; decide
      | checkout => left; rw [h1]
      | exiting => right; exact ⟨rfl, h2, h1⟩
      | exited => exact absurd hs h
    · left
      rw [h1]
      cases hs : c.status with
      | shopping => decide
      | checkout => decide
      | exiting => decide
      | exited => exact absurd hs h
  · intro hs
    rcases applyDecision_status_cases sq L c d with h1 | ⟨h1, _⟩ | ⟨h1, _⟩
    · rw [h1] at hs; exact hs
    · rw [h1] at hs; exact absurd hs (by decide)
    · rw [h1] at hs; exact absurd hs (by decide)
  · rcases checkTargetReached_status_cases sq L time c m with h1 | h1 | h1
    · rw [h1]
    · rw [h1]
      cases hs : c.status with
      | shopping => decide
      | checkout => decide
      | exiting => decide
      | exited => exact absurd hs h
    · rw [h1]
      cases hs : c.status with
      | shopping => decide
      | checkout => decide
      | exiting => decide
      | exited => decide

/-- Counterexample for C1 as stated: `custExiting` has status `'exiting'` and the
whole list collected; applying a checkout decision (which the fallback provider
returns in exactly this situation) sets the status back to `'checkout'` — a
strictly backward transition. -/
theorem C1_counterexample :
    custExiting.status = Status.exiting ∧
    (applyDecision id layoutCheckoutOnly custExiting
      { type := .checkout, target := none }).status = Status.checkout ∧
    statusRank (applyDecision id layoutCheckoutOnly custExiting
      { type := .checkout, target := none }).status < statusRank custExiting.status := by
  refine ⟨rfl, ?_, ?_⟩ <;> decide

/-- Witness for C1 (amended) at a concrete input. -/
theorem C1_status_forward_amended_witness :
    custExiting.status ≠ Status.exited ∧
    ((statusRank custExiting.status ≤
        statusRank (applyDecision id layoutCheckoutOnly custExiting
          { type := .checkout, target := none }).status ∨
      (custExiting.status = Status.exiting ∧
        DecisionType.checkout = DecisionType.checkout ∧
        (applyDecision id layoutCheckoutOnly custExiting
          { type := .checkout, target := none }).status = Status.checkout)) ∧
    ((applyDecision id layoutCheckoutOnly custExiting
        { type := .checkout, target := none }).status = Status.shopping →
      custExiting.status = Status.shopping) ∧
    statusRank custExiting.status ≤
      statusRank (checkTargetReached id layoutCheckoutOnly 0 custExiting initialMetrics).1.status) :=
  ⟨by decide,
    C1_status_forward_amended id layoutCheckoutOnly custExiting
      { type := .checkout, target := none } 0 initialMetrics (by decide)⟩

/-- Counterexample for C2 as stated: `layoutNoEntrance` is malformed (zero
entrances, zero products, and an exit referencing wall 5 of an empty wall list),
yet `start` raises nothing — it proceeds to the normal reset running state. -/
theorem C2_counterexample :
    layoutMalformed layoutNoEntrance ∧
    (start layoutNoEntrance).isRunning = true ∧
    (start layoutNoEntrance).customers = [] ∧
    (start layoutNoEntrance).metrics = initialMetrics := by
  refine ⟨?_, rfl, rfl, rfl⟩
  right; left; rfl

/-- C2 (amended).  `start()` performs no validation: it proceeds to the running
reset state for every layout, malformed ones included; a dangling opening wall
index is tolerated silently — the opening's position resolves to null (and the
callers skip null positions) rather than any fault being raised, before or
during the run. -/
theorem C2_no_validation_amended (sq : ℚ → ℚ) (L : Layout) (e : Opening)
    (h : L.walls.length ≤ e.wallIndex) :
    (start L).isRunning = true ∧ (start L).customers = [] ∧
    (start L).metrics = initialMetrics ∧
    getEntrancePosition sq L e = none ∧ getExitPosition sq L e = none := by
  refine ⟨rfl, rfl, rfl, ?_, ?_⟩
  · unfold getEntrancePosition
    split
    · rfl
    · rw [List.getElem?_eq_none h]
  · unfold getExitPosition
    split
    · rfl
    · rw [List.getElem?_eq_none h]

/-- Witness for C2 (amended) at a concrete input. -/
theorem C2_no_validation_amended_witness :
    layoutNoEntrance.walls.length ≤ 5 ∧
    ((start layoutNoEntrance).isRunning = true ∧
      (start layoutNoEntrance).customers = [] ∧
      (start layoutNoEntrance).metrics = initialMetrics ∧
      getEntrancePosition id layoutNoEntrance ⟨5, 0, 40⟩ = none ∧
      getExitPosition id layoutNoEntrance ⟨5, 0, 40⟩ = none) :=
  ⟨by decide, C2_no_validation_amended id layoutNoEntrance ⟨5, 0, 40⟩ (by decide)⟩

/-- C4. An opening with wall index 0 is skipped everywhere, even with a nonempty
wall list: its position resolves to null, `spawnCustomer` spawns nobody when the
picked entrance has index 0, and the closest-exit loop ignores such an exit. -/
theorem C4_wallIndex_zero_skipped (sq : ℚ → ℚ) (L : Layout) (e : Opening) (o : Oracle)
    (s : SimulationEngine) (rest : List Opening) (cx cy : ℚ)
    (h : e.wallIndex = 0)
    (hpick : s.layout.entrances[o.entrancePick % s.layout.entrances.length]? = some e) :
    getEntrancePosition sq L e = none ∧
    getExitPosition sq L e = none ∧
    spawnCustomer o s = s ∧
    closestExitFold sq L cx cy (e :: rest) = closestExitFold sq L cx cy rest := by
  have hent : ∀ (sq2 : ℚ → ℚ) (L2 : Layout), getEntrancePosition sq2 L2 e = none := by
    intro sq2 L2
    unfold getEntrancePosition
    rw [if_pos h]
  have hexit : ∀ (sq2 : ℚ → ℚ) (L2 : Layout), getExitPosition sq2 L2 e = none := by
    intro sq2 L2
    unfold getExitPosition
    rw [if_pos h]
  refine ⟨hent sq L, hexit sq L, ?_, ?_⟩
  · unfold spawnCustomer
    split
    · rfl
    · rw [hpick]
      simp only [hent]
  · unfold closestExitFold
    simp only [List.foldl_cons, hexit]

/-- Witness for C4 at a concrete input: `layoutSmall` has a nonempty wall list
(so index 0 names a valid first wall) and its entrance uses wall index 0. -/
theorem C4_wallIndex_zero_skipped_witness :
    (⟨0, 10, 40⟩ : Opening).wallIndex = 0 ∧
    (start layoutSmall).layout.entrances[oracle0.entrancePick %
      (start layoutSmall).layout.entrances.length]? = some ⟨0, 10, 40⟩ ∧
    (getEntrancePosition id layoutSmall ⟨0, 10, 40⟩ = none ∧
      getExitPosition id layoutSmall ⟨0, 10, 40⟩ = none ∧
      spawnCustomer oracle0 (start layoutSmall) = start layoutSmall ∧
      closestExitFold id layoutSmall 0 0 [⟨0, 10, 40⟩] = closestExitFold id layoutSmall 0 0 []) :=
  ⟨by decide, by decide,
    C4_wallIndex_zero_skipped id layoutSmall ⟨0, 10, 40⟩ oracle0 (start layoutSmall)
      [] 0 0 (by decide) (by decide)⟩

/-- Bumping a cell raises the grid total by exactly one. -/
theorem gridTotal_bump (g : List ((ℤ × ℤ) × ℕ)) (k : ℤ × ℤ) :
    gridTotal (bump g k) = gridTotal g + 1 := by
  induction g with
  | nil => rfl
  | cons e rest ih =>
    by_cases he : e.1 = k
    · unfold bump mapGet mapSet
      rw [List.find?_cons_of_pos _ (by simpa using he), if_pos he]
      simp only [gridTotal, List.map_cons, List.sum_cons]
      omega
    · unfold bump mapGet mapSet
      rw [List.find?_cons_of_neg _ (by simpa using he), if_neg he]
      unfold bump mapGet at ih
      simp only [gridTotal, List.map_cons, List.sum_cons] at ih ⊢
      omega

/-- The rebuilt congestion grid's total equals the number of customers counted. -/
theorem gridTotal_buildCongestion (cs : List Customer) :
    gridTotal (buildCongestion cs) = cs.length := by
  have key : ∀ (l : List Customer) (g : List ((ℤ × ℤ) × ℕ)),
      gridTotal (l.foldl (fun g c => bump g (customerCell c)) g) = gridTotal g + l.length := by
    intro l
    induction l with
    | nil => intro g; simp
    | cons c rest ih =>
      intro g
      simp only [List.foldl_cons]
      rw [ih (bump g (customerCell c)), gridTotal_bump]
      simp only [List.length_cons]
      omega
  have h0 := key cs []
  simpa [buildCongestion, gridTotal] using h0

/-- Every customer surviving `updateCustomers` is non-exited (the filter of
line 917). -/
theorem updateCustomers_no_exited (o : Oracle) (L : Layout) (time dt : ℚ)
    (cs : List Customer) (m : Metrics) :
    ∀ c ∈ (updateCustomers o L time dt cs m).1, c.status ≠ Status.exited := by
  intro c hc
  unfold updateCustomers at hc
  dsimp only at hc
  rw [List.mem_filter] at hc
  simpa using hc.2

/-- A running tick always ends in the update-then-rebuild shape: the final
customers are the filtered update result and the final metrics carry the grid
rebuilt from exactly those customers. -/
theorem tick_decompose (o : Oracle) (dt : ℚ) (s : SimulationEngine)
    (h : s.isRunning = true) :
    ∃ s2 : SimulationEngine,
      (tick o dt s).customers =
        (updateCustomers o s2.layout s2.time dt s2.customers s2.metrics).1 ∧
      (tick o dt s).metrics =
        updateCongestionMap
          (updateCustomers o s2.layout s2.time dt s2.customers s2.metrics).1
          (updateCustomers o s2.layout s2.time dt s2.customers s2.metrics).2 := by
  unfold tick
  rw [if_neg (by simp [h])]
  dsimp only
  exact ⟨_, rfl, rfl⟩

/-- C3. After every running tick's congestion rebuild, the sum of all grid cell
counts equals the number of currently active customers, and every remaining
customer is non-exited. -/
theorem C3_congestion_sum (o : Oracle) (dt : ℚ) (s : SimulationEngine)
    (h : s.isRunning = true) :
    gridTotal (tick o dt s).metrics.congestionData = (tick o dt s).customers.length ∧
    ∀ c ∈ (tick o dt s).customers, c.status ≠ Status.exited := by
  obtain ⟨s2, hc, hm⟩ := tick_decompose o dt s h
  constructor
  · rw [hm, hc]
    exact gridTotal_buildCongestion _
  · rw [hc]
    exact updateCustomers_no_exited o s2.layout s2.time dt s2.customers s2.metrics

/-- Witness for C3 at a concrete input. -/
theorem C3_congestion_sum_witness :
    (start layoutSmall).isRunning = true ∧
    (gridTotal (tick oracle0 100 (start layoutSmall)).metrics.congestionData =
        (tick oracle0 100 (start layoutSmall)).customers.length ∧
      ∀ c ∈ (tick oracle0 100 (start layoutSmall)).customers, c.status ≠ Status.exited) :=
  ⟨rfl, C3_congestion_sum oracle0 100 (start layoutSmall) rfl⟩

/-- Applying a decision never touches the collected items or the shopping list. -/
theorem applyDecision_fields (sq : ℚ → ℚ) (L : Layout) (c : Customer) (d : Decision) :
    (applyDecision sq L c d).collected = c.collected ∧
    (applyDecision sq L c d).shoppingList = c.shoppingList := by
  unfold applyDecision
  rcases d with ⟨dtype, dtarget⟩
  cases dtype with
  | product =>
    dsimp only
    cases dtarget with
    | none => exact ⟨rfl, rfl⟩
    | some t =>
      dsimp only
      cases L.products.find? (fun p => p.label == t.name) with
      | none => exact ⟨rfl, rfl⟩
      | some p => exact ⟨rfl, rfl⟩
  | checkout =>
    dsimp only
    cases L.checkouts with
    | nil => exact ⟨rfl, rfl⟩
    | cons cp cps => exact ⟨rfl, rfl⟩
  | exit =>
    dsimp only
    cases closestExit sq L c.x c.y L.exits with
    | none => exact ⟨rfl, rfl⟩
    | some pos => exact ⟨rfl, rfl⟩

/-- The full decision step never touches the collected items or the shopping list. -/
theorem makeCustomerDecision_fields (o : Oracle) (L : Layout) (cs : List Customer)
    (c : Customer) :
    (makeCustomerDecision o L cs c).collected = c.collected ∧
    (makeCustomerDecision o L cs c).shoppingList = c.shoppingList := by
  unfold makeCustomerDecision
  exact applyDecision_fields o.sqrt L c _

/-- Movement never touches the collected items or the shopping list. -/
theorem moveCustomer_fields (o : Oracle) (cs : List Customer) (dt : ℚ) (c : Customer) :
    (moveCustomer o cs dt c).collected = c.collected ∧
    (moveCustomer o cs dt c).shoppingList = c.shoppingList := by
  unfold moveCustomer
  dsimp only
  split
  · exact ⟨rfl, rfl⟩
  · split <;> exact ⟨rfl, rfl⟩

/-- Arrival handling preserves the collected-subset invariant: the only growth
of `collected` is by a label whose shopping-list membership the guard confirms. -/
theorem checkTargetReached_subset (sq : ℚ → ℚ) (L : Layout) (t : ℚ)
    (c : Customer) (m : Metrics)
    (h : ∀ x ∈ c.collected, x ∈ c.shoppingList) :
    ∀ x ∈ (checkTargetReached sq L t c m).1.collected,
      x ∈ (checkTargetReached sq L t c m).1.shoppingList := by
  unfold checkTargetReached
  dsimp only
  split
  case isFalse => exact h
  case isTrue =>
    split
    case h_1 =>
      split
      case h_1 =>
        split
        case isTrue hcond =>
          intro x hx
          dsimp only at hx ⊢
          rcases List.mem_append.mp hx with hx1 | hx1
          · exact h x hx1
          · have hx2 := List.mem_singleton.mp hx1
            subst hx2
            rw [Bool.and_eq_true] at hcond
            have hcontains := hcond.1
            unfold List.contains at hcontains
            exact List.elem_iff.mp hcontains
        case isFalse => exact h
      case h_2 => exact h
    case h_2 =>
      split
      case isTrue =>
        split
        all_goals exact h
      case isFalse => exact h
    case h_3 => exact h
    case h_4 => exact h

/-- The per-customer update preserves the collected-subset invariant. -/
theorem updateOneCustomer_subset (o : Oracle) (L : Layout) (time dt : ℚ)
    (cs : List Customer) (c : Customer) (m : Metrics)
    (h : ∀ x ∈ c.collected, x ∈ c.shoppingList) :
    ∀ x ∈ (updateOneCustomer o L time dt cs c m).1.collected,
      x ∈ (updateOneCustomer o L time dt cs c m).1.shoppingList := by
  unfold updateOneCustomer
  dsimp only
  split
  case isTrue => exact h
  case isFalse =>
    apply checkTargetReached_subset
    intro x hx
    rw [(moveCustomer_fields _ _ _ _).1] at hx
    rw [(moveCustomer_fields _ _ _ _).2]
    revert hx
    split
    case isTrue =>
      intro hx
      try dsimp only at hx ⊢
      rw [(makeCustomerDecision_fields _ _ _ _).1] at hx
      rw [(makeCustomerDecision_fields _ _ _ _).2]
      exact h x hx
    case isFalse =>
      intro hx
      exact h x hx

/-- The in-place update loop preserves the collected-subset invariant for every
customer in the array. -/
theorem updateCustomersPass_subset (o : Oracle) (L : Layout) (time dt : ℚ)
    (cs : List Customer) (m : Metrics)
    (h : ∀ c ∈ cs, ∀ x ∈ c.collected, x ∈ c.shoppingList) :
    ∀ c ∈ (updateCustomersPass o L time dt cs m).1,
      ∀ x ∈ c.collected, x ∈ c.shoppingList := by
  unfold updateCustomersPass
  have key : ∀ (l : List ℕ) (acc : List Customer × Metrics),
      (∀ c ∈ acc.1, ∀ x ∈ c.collected, x ∈ c.shoppingList) →
      ∀ c ∈ (l.foldl
          (fun acc i =>
            match acc.1[i]? with
            | none => acc
            | some c =>
              let r := updateOneCustomer o L time dt acc.1 c acc.2
              (acc.1.set i r.1, r.2)) acc).1,
        ∀ x ∈ c.collected, x ∈ c.shoppingList := by
    intro l
    induction l with
    | nil => intro acc hacc; exact hacc
    | cons i rest ih =>
      intro acc hacc
      simp only [List.foldl_cons]
      apply ih
      cases hget : acc.1[i]? with
      | none => simpa [hget] using hacc
      | some c =>
        simp only [hget]
        intro c2 hc2
        rcases List.mem_or_eq_of_mem_set hc2 with hmem | heq
        · exact hacc c2 hmem
        · subst heq
          exact updateOneCustomer_subset o L time dt acc.1 c acc.2
            (hacc c (List.getElem?_mem hget))
  exact key _ _ h

/-- Spawning preserves the collected-subset invariant: a fresh customer starts
with an empty collected list. -/
theorem spawnCustomer_subset (o : Oracle) (s : SimulationEngine)
    (h : ∀ c ∈ s.customers, ∀ x ∈ c.collected, x ∈ c.shoppingList) :
    ∀ c ∈ (spawnCustomer o s).customers, ∀ x ∈ c.collected, x ∈ c.shoppingList := by
  unfold spawnCustomer
  split
  · exact h
  · split
    · exact h
    · split
      · exact h
      · intro c hc
        dsimp only at hc
        rcases List.mem_append.mp hc with hmem | hnew
        · exact h c hmem
        · have := List.mem_singleton.mp hnew
          subst this
          intro x hx
          simp at hx

/-- C9. The collected-items list stays a subset of the shopping list across a
whole tick: if every customer satisfies the invariant before the tick, every
customer does after it (spawned customers start empty; items are only collected
when listed and not yet collected). -/
theorem C9_collected_subset (o : Oracle) (dt : ℚ) (s : SimulationEngine)
    (h : ∀ c ∈ s.customers, ∀ x ∈ c.collected, x ∈ c.shoppingList) :
    ∀ c ∈ (tick o dt s).customers, ∀ x ∈ c.collected, x ∈ c.shoppingList := by
  unfold tick
  split
  case isTrue => exact h
  case isFalse =>
    dsimp only
    intro c hc
    unfold updateCustomers at hc
    dsimp only at hc
    rw [List.mem_filter] at hc
    refine updateCustomersPass_subset o _ _ dt _ _ ?_ c hc.1
    split
    · exact spawnCustomer_subset o _ h
    · exact h

/-- Witness for C9 at a concrete input: one active customer holding exactly the
item on their list. -/
theorem C9_collected_subset_witness :
    (∀ c ∈ ({ start layoutSmall with customers := [custExiting] }
        : SimulationEngine).customers, ∀ x ∈ c.collected, x ∈ c.shoppingList) ∧
    ∀ c ∈ (tick oracle0 100
        ({ start layoutSmall with customers := [custExiting] } : SimulationEngine)).customers,
      ∀ x ∈ c.collected, x ∈ c.shoppingList :=
  ⟨by decide,
    C9_collected_subset oracle0 100
      { start layoutSmall with customers := [custExiting] } (by decide)⟩

/-- Updating an empty customer array is a no-op on customers and metrics. -/
theorem updateCustomers_nil (o : Oracle) (L : Layout) (time dt : ℚ) (m : Metrics) :
    updateCustomers o L time dt [] m = ([], m) := by
  unfold updateCustomers updateCustomersPass
  simp

/-- Spawning on a layout with no entrances is a no-op (line 857). -/
theorem spawnCustomer_no_entrances (o : Oracle) (s : SimulationEngine)
    (h : s.layout.entrances = []) : spawnCustomer o s = s := by
  unfold spawnCustomer
  rw [if_pos (by simp [h])]

/-- A tick on an entrance-less engine with no customers and pristine metrics
keeps the layout and leaves customers empty and metrics pristine. -/
theorem tick_no_entrances (o : Oracle) (dt : ℚ) (s : SimulationEngine)
    (hL : s.layout.entrances = []) (hc : s.customers = []) (hm : s.metrics = initialMetrics) :
    (tick o dt s).layout = s.layout ∧ (tick o dt s).customers = [] ∧
    (tick o dt s).metrics = initialMetrics := by
  unfold tick
  split
  case isTrue => exact ⟨rfl, hc, hm⟩
  case isFalse =>
    dsimp only
    split
    case isTrue =>
      rw [spawnCustomer_no_entrances o _ (by simpa using hL)]
      dsimp only
      rw [hc, hm, updateCustomers_nil]
      exact ⟨rfl, rfl, rfl⟩
    case isFalse =>
      dsimp only
      rw [hc, hm, updateCustomers_nil]
      exact ⟨rfl, rfl, rfl⟩

/-- Iterating ticks from `start` on an entrance-less layout keeps the state
trivial: no customers ever, pristine metrics. -/
theorem foldl_tick_no_entrances (o : Oracle) (dts : List ℚ) :
    ∀ s : SimulationEngine,
      s.layout.entrances = [] → s.customers = [] → s.metrics = initialMetrics →
      (dts.foldl (fun s dt => tick o dt s) s).customers = [] ∧
      (dts.foldl (fun s dt => tick o dt s) s).metrics = initialMetrics := by
  induction dts with
  | nil => intro s _ hc hm; exact ⟨hc, hm⟩
  | cons dt rest ih =>
    intro s hL hc hm
    simp only [List.foldl_cons]
    obtain ⟨h1, h2, h3⟩ := tick_no_entrances o dt s hL hc hm
    exact ih (tick o dt s) (h1 ▸ hL) h2 h3

/-- C10. On a layout with zero entrances, a run of any length spawns zero
agents and completes without error: no customers ever exist,
`totalCustomers = 0`, and the reported `avgShoppingTime` and `avgCongestion`
both default to 0 (empty congestion grid, zero completed customers). -/
theorem C10_zero_entrances (o : Oracle) (L : Layout) (dts : List ℚ)
    (h : L.entrances = []) :
    (dts.foldl (fun s dt => tick o dt s) (start L)).customers = [] ∧
    (dts.foldl (fun s dt => tick o dt s) (start L)).metrics.totalCustomers = 0 ∧
    (getMetrics (dts.foldl (fun s dt => tick o dt s) (start L))).avgShoppingTime = 0 ∧
    (getMetrics (dts.foldl (fun s dt => tick o dt s) (start L))).avgCongestion = 0 := by
  obtain ⟨hc, hm⟩ := foldl_tick_no_entrances o dts (start L) h rfl rfl
  refine ⟨hc, ?_, ?_, ?_⟩
  · rw [hm]; rfl
  · unfold getMetrics
    rw [hm]
    show jsRound ((0 : ℚ) / 1000) = 0
    unfold jsRound
    norm_num
  · unfold getMetrics
    rw [hm]
    show (jsRound ((if 0 < ([] : List ℚ).length then _ else (0:ℚ)) * 10) : ℚ) / 10 = 0
    norm_num [jsRound]

/-- Witness for C10 at a concrete input: `layoutNoEntrance` run for three ticks. -/
theorem C10_zero_entrances_witness :
    layoutNoEntrance.entrances = [] ∧
    (([1000, 6000, 7000] : List ℚ).foldl (fun s dt => tick oracle0 dt s)
        (start layoutNoEntrance)).customers = [] ∧
    (([1000, 6000, 7000] : List ℚ).foldl (fun s dt => tick oracle0 dt s)
        (start layoutNoEntrance)).metrics.totalCustomers = 0 ∧
    (getMetrics (([1000, 6000, 7000] : List ℚ).foldl (fun s dt => tick oracle0 dt s)
        (start layoutNoEntrance))).avgShoppingTime = 0 ∧
    (getMetrics (([1000, 6000, 7000] : List ℚ).foldl (fun s dt => tick oracle0 dt s)
        (start layoutNoEntrance))).avgCongestion = 0 := by
  refine ⟨rfl, ?_⟩
  have h := C10_zero_entrances oracle0 layoutNoEntrance [1000, 6000, 7000] rfl
  exact h
